import Mathlib

/-!
Verification development for the s3-seek-archive writer pipeline, muxer and
reader (Rust crate `s4-utils`).  The Rust code is shallowly embedded: pure
logic is translated directly, and filesystem / database effects are made
explicit by threading their outcomes (success flags, byte counts, contents)
as parameters of the corresponding Lean functions.  u64 values are modelled
as `Nat`; the only place the 64-bit bound matters (the `u64::MAX` sentinel in
the worker classification, and big-endian encoding) carries the constant
`2 ^ 64` explicitly.
-/

deriving instance DecidableEq for Except

namespace S4

/-- Rust's `str::ends_with` on textual paths: the character sequence of
`suffix` is a suffix of the character sequence of `s`. -/
def strEndsWith (s suffix : String) : Bool :=
  suffix.data.isSuffixOf s.data

/-- `CompressionType` from `compress_utils.rs`. -/
inductive CompressionType where
  | LZMA
  | LZ4
deriving DecidableEq, Repr

/-- `CompressionType::from_str` (compress_utils.rs lines 12-22): the match
accepts `"LZMA" | "lzma"` and `"LZ4" | "lz4"`, and the wildcard arm returns
`Ok(LZ4)`, so parsing never fails. -/
def CompressionType.from_str (s : String) : Except Unit CompressionType :=
  if s = "LZMA" ∨ s = "lzma" then Except.ok CompressionType.LZMA
  else if s = "LZ4" ∨ s = "lz4" then Except.ok CompressionType.LZ4
  else Except.ok CompressionType.LZ4

/-- `CompressionType::to_string` (compress_utils.rs lines 24-31). -/
def CompressionType.toStr : CompressionType → String
  | CompressionType.LZMA => "LZMA"
  | CompressionType.LZ4 => "LZ4"

/-- `S4ArchiveEntryDetails` from `header_utils.rs`.  Offsets and sizes are
`u64` in the source, modelled as `Nat`. -/
structure S4ArchiveEntryDetails where
  name : String
  _type : String
  offset : Nat
  size : Nat
  compression : CompressionType
deriving DecidableEq, Repr

/-- `WriteThreadData` from `lib.rs` lines 16-20, annotated with the I/O
outcomes the serializer observes for that message:
* `RawBytes`: the payload bytes are carried as `data`; `writeOk` is the
  result of `buf_writer.write_all(&data)` (lib.rs line 51).
* `TempFile`: `openOk` is the result of `fs::File::open` (line 66);
  `copyOk` is whether `io::copy` (line 75) succeeded; `fileLen` is the byte
  count `io::copy` returns on success; `copiedLen` is the number of bytes
  that had already reached the blob writer when a failing copy stopped
  (irrelevant when `copyOk = true`).
* `Folder`: no payload. -/
inductive WriteThreadData where
  | RawBytes (data : List Nat) (writeOk : Bool)
  | TempFile (openOk : Bool) (copyOk : Bool) (fileLen : Nat) (copiedLen : Nat)
  | Folder
deriving DecidableEq, Repr

/-- `WriteThreadInput` from `lib.rs` lines 22-26, annotated with `insertOk`,
the outcome of `header_writer.insert_entry` for this message (the source
discards that `Result` with `let _ = … .inspect_err`, lines 55-62, 78-87,
91-98). -/
structure WriteThreadInput where
  data : WriteThreadData
  compression : CompressionType
  entry_name : String
  insertOk : Bool
deriving DecidableEq, Repr

/-- The serializer state threaded through `writer_loop`'s `for` loop:
the running `offset` variable (lib.rs line 46), the number of bytes that
have reached the blob writer, and the in-memory index rows in insertion
order. -/
structure WriterState where
  offset : Nat
  blobLen : Nat
  index : List S4ArchiveEntryDetails
deriving DecidableEq, Repr

/-- One iteration of the `for r_msg in rx` loop body of `writer_loop`
(lib.rs lines 47-101).
* `RawBytes`: a failed `write_all` hits `continue` (no offset advance, no
  insert); on success the entry is inserted at the current offset with
  `size = data.len()` when the insert succeeds, and `offset += data.len()`
  unconditionally.
* `TempFile`: a failed open hits `continue`; otherwise
  `write_size = io::copy(..).unwrap_or(0)`, i.e. `fileLen` on success and
  `0` on a failed copy (even though `copiedLen` bytes already reached the
  blob); the entry is inserted with `size = write_size` when the insert
  succeeds, and `offset += write_size` unconditionally.
* `Folder`: insert `(name, FOLDER, 0, 0)` when the insert succeeds. -/
def writerStep (st : WriterState) (msg : WriteThreadInput) : WriterState :=
  match msg.data with
  | WriteThreadData.RawBytes data writeOk =>
    if writeOk then
      { offset := st.offset + data.length
        blobLen := st.blobLen + data.length
        index :=
          if msg.insertOk then
            st.index ++
              [⟨msg.entry_name, "FILE", st.offset, data.length, msg.compression⟩]
          else st.index }
    else st
  | WriteThreadData.TempFile openOk copyOk fileLen copiedLen =>
    if openOk then
      let write_size := if copyOk then fileLen else 0
      { offset := st.offset + write_size
        blobLen := st.blobLen + (if copyOk then fileLen else copiedLen)
        index :=
          if msg.insertOk then
            st.index ++
              [⟨msg.entry_name, "FILE", st.offset, write_size, msg.compression⟩]
          else st.index }
    else st
  | WriteThreadData.Folder =>
    { st with
      index :=
        if msg.insertOk then
          st.index ++ [⟨msg.entry_name, "FOLDER", 0, 0, msg.compression⟩]
        else st.index }

/-- The receive loop of `writer_loop`: messages are processed in order until
the channel yields the `None` sentinel (`let Some(msg) = r_msg else break`,
lib.rs line 48). -/
def writer_loop_go (st : WriterState) : List (Option WriteThreadInput) → WriterState
  | [] => st
  | none :: _ => st
  | some msg :: rest => writer_loop_go (writerStep st msg) rest

/-- `writer_loop`'s index/offset behaviour (lib.rs lines 46-101): start from
`offset = 0`, an empty blob and an empty index, and fold the received
messages. -/
def writer_loop (msgs : List (Option WriteThreadInput)) : WriterState :=
  writer_loop_go ⟨0, 0, []⟩ msgs

/-- The FILE rows of an index, in insertion order. -/
def fileEntries (l : List S4ArchiveEntryDetails) : List S4ArchiveEntryDetails :=
  l.filter (fun e => e._type = "FILE")

/-- `contiguousFromB o [e₁, …, eₙ]` holds when `e₁.offset = o` and each
subsequent entry starts exactly where the previous one ended. -/
def contiguousFromB : Nat → List S4ArchiveEntryDetails → Bool
  | _, [] => true
  | o, e :: rest => decide (e.offset = o) && contiguousFromB (o + e.size) rest

/-- Sum of the `size` fields of a list of entries. -/
def sizeSum (l : List S4ArchiveEntryDetails) : Nat :=
  (l.map S4ArchiveEntryDetails.size).sum

/-- Every message in the stream had a successful index insert. -/
def allInsertsOk (msgs : List (Option WriteThreadInput)) : Bool :=
  msgs.all (fun m => match m with
    | none => true
    | some msg => msg.insertOk)

/-! ## Muxer (lib.rs lines 119-155) -/

/-- `u64::to_be_bytes`: the 8 big-endian bytes of a `u64`. -/
def toBeBytes8 (n : Nat) : List Nat :=
  [n / 2 ^ 56 % 256, n / 2 ^ 48 % 256, n / 2 ^ 40 % 256, n / 2 ^ 32 % 256,
   n / 2 ^ 24 % 256, n / 2 ^ 16 % 256, n / 2 ^ 8 % 256, n % 256]

/-- `u64::from_be_bytes`: big-endian decoding of a byte list. -/
def fromBeBytes (bs : List Nat) : Nat :=
  bs.foldl (fun acc b => acc * 256 + b) 0

/-- `mux_db_and_blob` (lib.rs lines 119-155), on the byte level.  The LZMA
compression of the index db file (`compress_utils::compress` with
`CompressionType::LZMA`) is abstracted as the function `lzma`; the source
then writes, in order, the 8-byte big-endian size of the compressed db
file (`File::write` of the `to_be_bytes` array, modelled as writing all 8
bytes), the compressed db bytes, and the blob bytes, into the archive
file. -/
def mux_db_and_blob (lzma : List Nat → List Nat) (dbBytes blobBytes : List Nat) :
    List Nat :=
  let xz := lzma dbBytes
  toBeBytes8 xz.length ++ xz ++ blobBytes

/-! ## Reader open path (lib.rs lines 269-321) -/

/-- Result of `extract_db`: the decompressed header bytes written to `out`,
and the returned value `header_size + 8`. -/
structure ExtractDbResult where
  headerBytes : List Nat
  blobOffset : Nat
deriving DecidableEq, Repr

/-- `extract_db` (lib.rs lines 269-287).  `inp` is the archive path (as the
textual form of the `Path`), `fileBytes` the archive file's contents, and
`unlzma` abstracts `compress_utils::decompress_from_mem` with
`CompressionType::LZMA` (`none` = decompression error).  The source:
rejects paths not ending in `".s4a"` before opening the file; reads the
first 8 bytes with `read_exact` (error if the file is shorter); decodes
them big-endian into `header_size`; reads `header_size` bytes at offset 8
with `read_exact_at` (error if the file is shorter than
`8 + header_size`); LZMA-decompresses them and writes the result to the
output file; returns `header_size + 8`. -/
def extract_db (unlzma : List Nat → Option (List Nat)) (inp : String)
    (fileBytes : List Nat) : Except String ExtractDbResult :=
  if ¬ strEndsWith inp ".s4a" then
    Except.error "expecting .s4a file to extract header from"
  else if fileBytes.length < 8 then
    Except.error "at reading header size"
  else
    let header_size := fromBeBytes (fileBytes.take 8)
    if fileBytes.length < 8 + header_size then
      Except.error "at reading header bytes"
    else
      let header_bytes := (fileBytes.drop 8).take header_size
      match unlzma header_bytes with
      | none => Except.error "at extracting header bytes"
      | some decompressed =>
        Except.ok ⟨decompressed, header_size + 8⟩

/-- `LocalS4ArchiveReader` (lib.rs lines 302-306).  The `HashMap` keyed by
entry name is modelled as an association list (key, entry). -/
structure LocalS4ArchiveReader where
  entry_map : List (String × S4ArchiveEntryDetails)
  archive_path : String
  blob_offset : Nat
deriving DecidableEq, Repr

/-- `LocalS4ArchiveReader::from_s4a` (lib.rs lines 309-315): extract the db
into a temporary header file, parse it into the entry map
(`S4ArchiveEntryDetails::parse_header`, abstracted as `parseHeader` over
the decompressed db bytes), and store `blob_offset` as returned by
`extract_db`. -/
def from_s4a (unlzma : List Nat → Option (List Nat))
    (parseHeader : List Nat → Except String (List (String × S4ArchiveEntryDetails)))
    (archive_path : String) (fileBytes : List Nat) :
    Except String LocalS4ArchiveReader :=
  match extract_db unlzma archive_path fileBytes with
  | Except.error e => Except.error e
  | Except.ok r =>
    match parseHeader r.headerBytes with
    | Except.error e => Except.error e
    | Except.ok entry_map =>
      Except.ok ⟨entry_map, archive_path, r.blobOffset⟩

/-! ## Worker classification (lib.rs lines 208-243) -/

/-- The kind of message a worker sends for a regular file. -/
inductive WorkerMsgKind where
  | rawBytes
  | tempFile
deriving DecidableEq, Repr

/-- The size classification in the worker closure (lib.rs lines 213-242):
`file_len = fs::metadata(..).map(|x| x.len()).unwrap_or(u64::MAX)`
(`metadataLen = none` models a failed metadata call), then
`if file_len > max_in_mem_file_size` compress to a scratch file and send
`TempFile`, else compress in memory and send `RawBytes`. -/
def worker_msg_kind (metadataLen : Option Nat) (max_in_mem_file_size : Nat) :
    WorkerMsgKind :=
  let file_len := metadataLen.getD (2 ^ 64 - 1)
  if file_len > max_in_mem_file_size then WorkerMsgKind.tempFile
  else WorkerMsgKind.rawBytes

/-! ## Entry extraction (lib.rs lines 323-384) -/

/-- A filesystem effect of `extract_entry`, recorded relative to the output
directory. -/
inductive FsAction where
  | mkdirParent (name : String)
  | writeFile (name : String)
  | mkdirAll (name : String)
deriving DecidableEq, Repr

/-- `LocalS4ArchiveReader::extract_entry` (lib.rs lines 323-349), as the
list of filesystem effects it performs when every I/O step succeeds:
for a `"FILE"` entry it creates the parent directories of
`output_dir/name` and decompresses the blob slice into that file; for a
`"FOLDER"` entry it creates the directory `output_dir/name`; any other
`_type` yields the `invalid entry type` error. -/
def extract_entry (e : S4ArchiveEntryDetails) : Except String (List FsAction) :=
  if e._type = "FILE" then
    Except.ok [FsAction.mkdirParent e.name, FsAction.writeFile e.name]
  else if e._type = "FOLDER" then
    Except.ok [FsAction.mkdirAll e.name]
  else
    Except.error ("invalid entry type " ++ e._type ++ " for " ++ e.name)

/-- `LocalS4ArchiveReader::extract_regexp_files` (lib.rs lines 372-384).
`Regex::new(pattern)` is abstracted as `compiled`: `none` models an invalid
pattern (the source returns at once), `some re` a compiled regex whose
`is_match` is the predicate `re`.  For each entry of the map whose name
matches, `extract_entry` runs; its per-entry error is logged and dropped.
The effects are collected in map iteration order.  `regexpStep` is the
`for_each` body (lib.rs lines 376-383): skip entries whose name does not
match, otherwise run `extract_entry` and drop (log) its error. -/
def regexpStep (re : String → Bool) (acc : List FsAction)
    (kv : String × S4ArchiveEntryDetails) : List FsAction :=
  let entry_info := kv.2
  if ¬ re entry_info.name then acc
  else
    match extract_entry entry_info with
    | Except.ok acts => acc ++ acts
    | Except.error _ => acc

/-- The iteration of `extract_regexp_files` over the entry map: with an
invalid pattern the function returns at once; otherwise `regexpStep` runs
for each entry in map order. -/
def extract_regexp_files (compiled : Option (String → Bool))
    (entry_map : List (String × S4ArchiveEntryDetails)) : List FsAction :=
  match compiled with
  | none => []
  | some re => entry_map.foldl (regexpStep re) []

/-- The names of the files written by a list of filesystem effects. -/
def filesWritten (acts : List FsAction) : List String :=
  acts.filterMap (fun a => match a with
    | FsAction.writeFile n => some n
    | _ => none)

/-! ## Archive-path dispatch (lib.rs lines 387-402) -/

/-- Which reader constructor `uncompress_archive` picks from the textual
archive path, before touching the file (lib.rs lines 393-399). -/
inductive ReaderDispatch where
  | fromS4a
  | fromS4aDb
  | unknownExtension
deriving DecidableEq, Repr

/-- The path dispatch of `uncompress_archive`: `ends_with(".s4a")` picks
`from_s4a`, else `ends_with(".s4a.db")` picks `from_s4a_db`, else the
function returns the `unknown file extension` error. -/
def uncompress_archive_dispatch (archive_path : String) : ReaderDispatch :=
  if strEndsWith archive_path ".s4a" then ReaderDispatch.fromS4a
  else if strEndsWith archive_path ".s4a.db" then ReaderDispatch.fromS4aDb
  else ReaderDispatch.unknownExtension

/-! ## Error propagation of `writer_loop` and `compress_directory`
(lib.rs lines 28-44, 103-116, 157-267) -/

/-- Outcomes of the fallible steps of `writer_loop` outside the message
loop, in source order: `Connection::open_in_memory` (line 37),
`HeaderDBWriter::new` (line 38, the schema), `File::create(&blob_path)`
(line 43), `header_writer.flush()` / `buf_writer.flush()` (lines 103-104),
and the snapshot to disk (`Connection::open` plus the backup run, lines
107-113). -/
structure WriterEnv where
  dbOpenOk : Bool
  schemaOk : Bool
  blobCreateOk : Bool
  flushOk : Bool
  snapshotOk : Bool
deriving DecidableEq, Repr

/-- `writer_loop`'s `Result` (lib.rs lines 28-117): each fallible step
short-circuits with its error string (in source order); when all succeed
the final serializer state is produced by the message loop. -/
def writer_loop_res (env : WriterEnv) (msgs : List (Option WriteThreadInput)) :
    Except String WriterState :=
  if ¬ env.dbOpenOk then Except.error "at in-mem sql db create"
  else if ¬ env.schemaOk then Except.error "at creating mysql table"
  else if ¬ env.blobCreateOk then Except.error "at opening blob path"
  else
    let st := writer_loop msgs
    if ¬ env.flushOk then Except.error "error flushing data to blob"
    else if ¬ env.snapshotOk then Except.error "at flushing data to index"
    else Except.ok st

/-- Outcomes of the fallible steps of `compress_directory` (lib.rs lines
157-267): `tempfile::tempdir()` (line 179), the thread-pool build (lines
183-186), the writer thread's environment, `mux_db_and_blob` (line 262),
and `fs::remove_dir_all` (line 265). -/
structure CompressDirEnv where
  tmpDirOk : Bool
  poolOk : Bool
  writerEnv : WriterEnv
  muxOk : Bool
  rmTmpOk : Bool
deriving DecidableEq, Repr

/-- The `Result` of `compress_directory` (lib.rs lines 157-267).  The
writer thread runs `let _ = writer_loop(..).inspect_err(..)` (lines
193-194) and `let _ = t_handle.join()` (line 257): its error is printed
and discarded, so it never reaches the return value.  Only the tempdir
creation, the pool build, the mux step (when `mux` is true, line 262) and
the final `remove_dir_all` (line 265) propagate. -/
def compress_directory_res (env : CompressDirEnv)
    (msgs : List (Option WriteThreadInput)) (mux : Bool) : Except String Unit :=
  if ¬ env.tmpDirOk then Except.error "at creating temp dir for compression"
  else if ¬ env.poolOk then Except.error "error initializing thread pool"
  else
    let _writerRes := writer_loop_res env.writerEnv msgs
    if mux ∧ ¬ env.muxOk then Except.error "at muxing"
    else if ¬ env.rmTmpOk then Except.error "error removing temp dir"
    else Except.ok ()

/-! ## Theorems -/

/-- The big-endian u64 encoding has 8 bytes. -/
theorem toBeBytes8_length (n : Nat) : (toBeBytes8 n).length = 8 := rfl

/-- Big-endian decoding inverts the 8-byte big-endian encoding on u64
values. -/
theorem fromBeBytes_toBeBytes8 (n : Nat) (h : n < 2 ^ 64) :
    fromBeBytes (toBeBytes8 n) = n := by
  simp only [toBeBytes8, fromBeBytes, List.foldl]
  norm_num
  omega

/-- Claim C2: a muxed archive is exactly the 8-byte big-endian length of
the LZMA-compressed index, then the compressed index bytes, then the blob
bytes: the first 8 bytes decode (big-endian) to the compressed index
length, the remainder is the compressed index followed by the blob, and
the total length is `8 + header_size + blob_size`. -/
theorem mux_layout (lzma : List Nat → List Nat) (dbBytes blobBytes : List Nat)
    (h : (lzma dbBytes).length < 2 ^ 64) :
    (mux_db_and_blob lzma dbBytes blobBytes).take 8 =
      toBeBytes8 (lzma dbBytes).length ∧
    fromBeBytes ((mux_db_and_blob lzma dbBytes blobBytes).take 8) =
      (lzma dbBytes).length ∧
    (mux_db_and_blob lzma dbBytes blobBytes).drop 8 =
      lzma dbBytes ++ blobBytes ∧
    (mux_db_and_blob lzma dbBytes blobBytes).drop
        (8 + (lzma dbBytes).length) = blobBytes ∧
    (mux_db_and_blob lzma dbBytes blobBytes).length =
      8 + (lzma dbBytes).length + blobBytes.length := by
  have hmux : mux_db_and_blob lzma dbBytes blobBytes =
      toBeBytes8 (lzma dbBytes).length ++ (lzma dbBytes ++ blobBytes) := by
    simp [mux_db_and_blob]
  have htake : (mux_db_and_blob lzma dbBytes blobBytes).take 8 =
      toBeBytes8 (lzma dbBytes).length := by
    rw [hmux]
    exact List.take_left' (toBeBytes8_length _)
  refine ⟨htake, ?_, ?_, ?_, ?_⟩
  · rw [htake]
    exact fromBeBytes_toBeBytes8 _ h
  · rw [hmux]
    exact List.drop_left' (toBeBytes8_length _)
  · rw [hmux, ← List.append_assoc]
    have hlen : (toBeBytes8 (lzma dbBytes).length ++ lzma dbBytes).length =
        8 + (lzma dbBytes).length := by
      simp [toBeBytes8_length]
    exact List.drop_left' hlen
  · rw [hmux]
    simp [toBeBytes8_length]
    omega

/-- Claim C2, witness: with the compression abstracted as producing the
single byte `[7]` and blob `[9]`, the muxed archive decodes back into its
three parts. -/
theorem mux_layout_witness :
    fromBeBytes ((mux_db_and_blob (fun _ => [7]) [] [9]).take 8) = 1 ∧
    (mux_db_and_blob (fun _ => [7]) [] [9]).drop 8 = [7, 9] ∧
    (mux_db_and_blob (fun _ => [7]) [] [9]).length = 10 := by
  have hm := mux_layout (fun _ => [7]) [] [9] (by norm_num)
  exact ⟨hm.2.1, hm.2.2.1, hm.2.2.2.2⟩

/-- Claim C3: opening a muxed archive decodes the first 8 bytes as the
big-endian `header_size`, takes exactly `header_size` bytes starting at
file offset 8, LZMA-decompresses them, loads the entry map from the
result, and records `blob_offset = header_size + 8`. -/
theorem from_s4a_open (unlzma : List Nat → Option (List Nat))
    (parseHeader : List Nat → Except String (List (String × S4ArchiveEntryDetails)))
    (path : String) (bytes db : List Nat)
    (em : List (String × S4ArchiveEntryDetails))
    (hsuf : strEndsWith path ".s4a" = true)
    (hlen : 8 + fromBeBytes (bytes.take 8) ≤ bytes.length)
    (hun : unlzma ((bytes.drop 8).take (fromBeBytes (bytes.take 8))) = some db)
    (hp : parseHeader db = Except.ok em) :
    from_s4a unlzma parseHeader path bytes =
      Except.ok ⟨em, path, fromBeBytes (bytes.take 8) + 8⟩ := by
  have h8 : ¬ (bytes.length < 8) := by omega
  have hl2 : ¬ (bytes.length < 8 + fromBeBytes (bytes.take 8)) := by omega
  simp [from_s4a, extract_db, hsuf, h8, hl2, hun, hp]

/-- Claim C3, witness: a 10-byte archive whose first 8 bytes encode
`header_size = 2` is opened with `blob_offset = 10` and the 2 header bytes
`[9, 9]` handed to the (here: identity) decompressor and parser. -/
theorem from_s4a_open_witness :
    from_s4a (fun l => some l) (fun _ => Except.ok [])
        "x.s4a" [0, 0, 0, 0, 0, 0, 0, 2, 9, 9] =
      Except.ok ⟨[], "x.s4a", 10⟩ := by
  exact from_s4a_open (fun l => some l) (fun _ => Except.ok [])
    "x.s4a" [0, 0, 0, 0, 0, 0, 0, 2, 9, 9] [9, 9] []
    (by decide) (by decide) (by decide) rfl

/-- Claim C8, counterexample: the tag `"lzma"` is not one of the two
case-sensitive values `"LZMA"`, `"LZ4"`, so under the claim it would have
to fall back to `LZ4`; the parser instead recognizes it as `LZMA`. -/
theorem from_str_lzma_lowercase :
    CompressionType.from_str "lzma" = Except.ok CompressionType.LZMA ∧
    CompressionType.from_str "lzma" ≠ Except.ok CompressionType.LZ4 := by
  decide

/-- Claim C8 (amended): the codec tag parser never fails; it recognizes
`"LZMA"` and `"lzma"` as `LZMA`, and every other tag (including `"LZ4"`
and `"lz4"`) yields `LZ4`. -/
theorem from_str_characterization (s : String) :
    CompressionType.from_str s =
      Except.ok
        (if s = "LZMA" ∨ s = "lzma" then CompressionType.LZMA
         else CompressionType.LZ4) := by
  unfold CompressionType.from_str
  split
  · rfl
  · split <;> simp_all

/-- Claim C6: a regular file whose sampled size is at most
`max_in_mem_file_size` takes the in-memory path (`RawBytes`), a strictly
larger one takes the scratch-file path (`TempFile`); in particular a file
exactly at the threshold goes in memory and one byte larger goes to a
scratch file. -/
theorem worker_threshold (sz m : Nat) :
    (worker_msg_kind (some sz) m =
      if sz ≤ m then WorkerMsgKind.rawBytes else WorkerMsgKind.tempFile) ∧
    worker_msg_kind (some sz) sz = WorkerMsgKind.rawBytes ∧
    worker_msg_kind (some (sz + 1)) sz = WorkerMsgKind.tempFile := by
  refine ⟨?_, ?_, ?_⟩ <;> simp only [worker_msg_kind, Option.getD] <;> split <;>
    first | rfl | omega | (split <;> first | rfl | omega)

/-- Claim C10: when sampling a file's metadata fails, the worker uses
`u64::MAX` as the size, so with `max_in_mem_file_size < u64::MAX` the file
takes the scratch-file path, and with `max_in_mem_file_size = u64::MAX` it
takes the in-memory path. -/
theorem worker_metadata_failure (m : Nat) :
    (m < 2 ^ 64 - 1 → worker_msg_kind none m = WorkerMsgKind.tempFile) ∧
    (m = 2 ^ 64 - 1 → worker_msg_kind none m = WorkerMsgKind.rawBytes) := by
  constructor <;> intro h <;>
    simp only [worker_msg_kind, Option.getD] <;> split <;> first | rfl | omega

/-- Claim C10, witness: at `max_in_mem_file_size = 5` a metadata failure
forces the scratch-file path. -/
theorem worker_metadata_failure_witness :
    5 < 2 ^ 64 - 1 ∧ worker_msg_kind none 5 = WorkerMsgKind.tempFile :=
  ⟨by norm_num, (worker_metadata_failure 5).1 (by norm_num)⟩

/-- Claim C9: `extract_db` (hence `from_s4a`) rejects every path not ending
in `".s4a"` without looking at the file contents, and
`uncompress_archive` rejects every path ending in neither `".s4a"` nor
`".s4a.db"`. -/
theorem suffix_gate (unlzma : List Nat → Option (List Nat))
    (parseHeader : List Nat → Except String (List (String × S4ArchiveEntryDetails)))
    (inp : String) (fileBytes : List Nat)
    (h : ¬ strEndsWith inp ".s4a") :
    extract_db unlzma inp fileBytes =
      Except.error "expecting .s4a file to extract header from" ∧
    from_s4a unlzma parseHeader inp fileBytes =
      Except.error "expecting .s4a file to extract header from" ∧
    (¬ strEndsWith inp ".s4a.db" →
      uncompress_archive_dispatch inp = ReaderDispatch.unknownExtension) := by
  have hdb : extract_db unlzma inp fileBytes =
      Except.error "expecting .s4a file to extract header from" := by
    unfold extract_db
    simp [h]
  refine ⟨hdb, ?_, ?_⟩
  · unfold from_s4a
    rw [hdb]
  · intro h2
    unfold uncompress_archive_dispatch
    simp [h, h2]

/-- Claim C9, witness: the path `"archive.tar"` ends in neither suffix and
is rejected by both gates. -/
theorem suffix_gate_witness :
    ¬ (strEndsWith "archive.tar" ".s4a") = true ∧
    extract_db (fun _ => none) "archive.tar" [] =
      Except.error "expecting .s4a file to extract header from" ∧
    uncompress_archive_dispatch "archive.tar" = ReaderDispatch.unknownExtension := by
  have h : ¬ (strEndsWith "archive.tar" ".s4a") = true := by decide
  have hmain := suffix_gate (fun _ => none)
    (fun _ => Except.ok ([] : List (String × S4ArchiveEntryDetails)))
    "archive.tar" [] h
  exact ⟨h, hmain.1, hmain.2.2 (by decide)⟩

/-- Claim C5, counterexample: a scratch-file copy that fails after 1 byte
has reached the blob leaves that byte in the blob, but the entry is
recorded with size `0` — not the partial length `1` — and the offset does
not advance. -/
theorem partial_copy_records_zero :
    (writer_loop [some ⟨WriteThreadData.TempFile true false 5 1,
        CompressionType.LZ4, "a", true⟩]).blobLen = 1 ∧
    (writer_loop [some ⟨WriteThreadData.TempFile true false 5 1,
        CompressionType.LZ4, "a", true⟩]).index =
      [⟨"a", "FILE", 0, 0, CompressionType.LZ4⟩] ∧
    (writer_loop [some ⟨WriteThreadData.TempFile true false 5 1,
        CompressionType.LZ4, "a", true⟩]).offset = 0 := by
  decide

/-- Claim C5 (amended): when the serializer's stream-copy of a scratch file
fails mid-way with `copiedLen` bytes already written, the blob keeps those
partial bytes, but `io::copy`'s error carries no byte count and the code
substitutes `0` (`unwrap_or(0)`): the entry is still recorded, with size
`0`, and the offset does not advance. -/
theorem partial_copy_behaviour (st : WriterState) (name : String)
    (comp : CompressionType) (fileLen copiedLen : Nat) :
    writerStep st ⟨WriteThreadData.TempFile true false fileLen copiedLen,
        comp, name, true⟩ =
      ⟨st.offset, st.blobLen + copiedLen,
        st.index ++ [⟨name, "FILE", st.offset, 0, comp⟩]⟩ := by
  simp [writerStep]

/-- Claim C4, counterexample: with `blobCreateOk = false` the writer thread
aborts with the structured error `"at opening blob path"`, yet
`compress_directory` (with muxing off) discards the writer result and
returns `Ok(())` — no structured error reaches the caller. -/
theorem blob_create_failure_not_propagated :
    writer_loop_res ⟨true, true, false, true, true⟩ [] =
      Except.error "at opening blob path" ∧
    compress_directory_res ⟨true, true, ⟨true, true, false, true, true⟩,
        true, true⟩ [] false = Except.ok () := by
  decide

/-- Claim C4 (amended): `compress_directory` returns a structured error
when the mux step fails; the writer-thread-fatal conditions (cannot create
the blob file, cannot create the schema, cannot snapshot the index) abort
only the writer thread — their error is logged and discarded, and with
muxing off `compress_directory` still returns `Ok` regardless of them. -/
theorem compress_directory_error_propagation (env : CompressDirEnv)
    (msgs : List (Option WriteThreadInput))
    (htmp : env.tmpDirOk = true) (hpool : env.poolOk = true) :
    (env.muxOk = false →
      compress_directory_res env msgs true = Except.error "at muxing") ∧
    (env.rmTmpOk = true →
      compress_directory_res env msgs false = Except.ok ()) := by
  constructor <;> intro h <;> simp [compress_directory_res, htmp, hpool, h]

/-- Claim C4 (amended), witness: a failing mux step with everything else
healthy surfaces the mux error. -/
theorem compress_directory_error_propagation_witness :
    compress_directory_res ⟨true, true, ⟨true, true, true, true, true⟩,
        false, true⟩ [] true = Except.error "at muxing" :=
  (compress_directory_error_propagation
      ⟨true, true, ⟨true, true, true, true, true⟩, false, true⟩ [] rfl rfl).1 rfl

/-- `regexpStep` only appends to its accumulator. -/
theorem regexpStep_append (re : String → Bool) (acc : List FsAction)
    (kv : String × S4ArchiveEntryDetails) :
    regexpStep re acc kv = acc ++ regexpStep re [] kv := by
  unfold regexpStep
  dsimp only
  split
  · simp
  · cases h : extract_entry kv.2 <;> simp [h]

/-- Folding `regexpStep` from any accumulator only appends to it. -/
theorem foldl_regexpStep (re : String → Bool)
    (em : List (String × S4ArchiveEntryDetails)) (acc : List FsAction) :
    em.foldl (regexpStep re) acc = acc ++ em.foldl (regexpStep re) [] := by
  induction em generalizing acc with
  | nil => simp
  | cons kv em ih =>
    simp only [List.foldl_cons]
    rw [ih (regexpStep re acc kv), ih (regexpStep re [] kv),
      regexpStep_append re acc kv, List.append_assoc]

/-- The files written by one `regexpStep` iteration: exactly the entry's
name when the name matches and the entry is a `FILE` row. -/
theorem filesWritten_regexpStep (re : String → Bool)
    (kv : String × S4ArchiveEntryDetails) :
    filesWritten (regexpStep re [] kv) =
      if re kv.2.name ∧ kv.2._type = "FILE" then [kv.2.name] else [] := by
  unfold regexpStep extract_entry
  by_cases hre : re kv.2.name = true <;>
    by_cases hty : kv.2._type = "FILE" <;>
      simp [hre, hty, filesWritten]
  by_cases hfo : kv.2._type = "FOLDER" <;> simp [hfo, filesWritten]

/-- Claim C7: with a pattern that compiles to the regex predicate `re`,
the files written by `extract_regexp_files` are exactly the names of the
`FILE` entries whose name matches `re` (in map iteration order); with a
pattern that does not compile, nothing is extracted. -/
theorem extract_regexp_file_selection (re : String → Bool)
    (em : List (String × S4ArchiveEntryDetails)) :
    filesWritten (extract_regexp_files (some re) em) =
      ((em.map Prod.snd).filter
        (fun e => re e.name ∧ e._type = "FILE")).map
        S4ArchiveEntryDetails.name ∧
    extract_regexp_files none em = [] := by
  constructor
  · show filesWritten (em.foldl (regexpStep re) []) = _
    induction em with
    | nil => simp [filesWritten]
    | cons kv em ih =>
      rw [List.foldl_cons, foldl_regexpStep re em (regexpStep re [] kv)]
      have hstep := filesWritten_regexpStep re kv
      simp only [filesWritten, List.filterMap_append] at ih hstep ⊢
      rw [hstep, List.map_cons, List.filter_cons]
      by_cases h1 : re kv.2.name = true
      · by_cases h2 : kv.2._type = "FILE"
        · simp [h1, h2, ih]
        · simp [h1, h2, ih]
      · simp [h1, ih]
  · rfl

/-- Appending one entry to an index keeps the other rows and contributes
the new row to the FILE rows exactly when it is a FILE row. -/
theorem fileEntries_append_one (l : List S4ArchiveEntryDetails)
    (e : S4ArchiveEntryDetails) :
    fileEntries (l ++ [e]) =
      fileEntries l ++ (if e._type = "FILE" then [e] else []) := by
  by_cases he : e._type = "FILE" <;>
    simp [fileEntries, List.filter_append, he]

/-- `sizeSum` over an appended entry. -/
theorem sizeSum_append_one (l : List S4ArchiveEntryDetails)
    (e : S4ArchiveEntryDetails) :
    sizeSum (l ++ [e]) = sizeSum l + e.size := by
  simp [sizeSum]

/-- Appending an entry that starts exactly at the end of a gap-free chain
keeps the chain gap-free. -/
theorem contiguous_append_one (o : Nat) (l : List S4ArchiveEntryDetails)
    (e : S4ArchiveEntryDetails)
    (hc : contiguousFromB o l = true) (he : e.offset = o + sizeSum l) :
    contiguousFromB o (l ++ [e]) = true := by
  induction l generalizing o with
  | nil =>
    simp [sizeSum] at he
    simp [contiguousFromB, he]
  | cons a l ih =>
    simp only [contiguousFromB, Bool.and_eq_true, decide_eq_true_eq] at hc
    simp only [List.cons_append, contiguousFromB, Bool.and_eq_true,
      decide_eq_true_eq]
    refine ⟨hc.1, ih (o + a.size) hc.2 ?_⟩
    simp only [sizeSum, List.map_cons, List.sum_cons] at he ⊢
    omega

/-- One serializer step with a successful index insert preserves the
invariant: the FILE rows are gap-free from offset 0 and the running offset
equals their total size. -/
theorem writerStep_inv (st : WriterState) (msg : WriteThreadInput)
    (hins : msg.insertOk = true)
    (hc : contiguousFromB 0 (fileEntries st.index) = true)
    (ho : st.offset = sizeSum (fileEntries st.index)) :
    contiguousFromB 0 (fileEntries (writerStep st msg).index) = true ∧
    (writerStep st msg).offset = sizeSum (fileEntries (writerStep st msg).index) := by
  cases hd : msg.data with
  | RawBytes data writeOk =>
    cases writeOk with
    | false => simpa [writerStep, hd] using ⟨hc, ho⟩
    | true =>
      simp only [writerStep, hd, hins, if_true]
      rw [fileEntries_append_one]
      constructor
      · exact contiguous_append_one 0 _ _ hc (by simpa using ho)
      · simp [sizeSum_append_one, ho]
  | TempFile openOk copyOk fileLen copiedLen =>
    cases openOk with
    | false => simpa [writerStep, hd] using ⟨hc, ho⟩
    | true =>
      simp only [writerStep, hd, hins, if_true]
      rw [fileEntries_append_one]
      constructor
      · exact contiguous_append_one 0 _ _ hc (by simpa using ho)
      · simp [sizeSum_append_one, ho]
  | Folder =>
    simp only [writerStep, hd, hins, if_true]
    rw [fileEntries_append_one]
    simpa using ⟨hc, ho⟩

/-- The receive loop preserves the gap-free invariant when every insert in
the remaining stream succeeds. -/
theorem writer_loop_go_inv (msgs : List (Option WriteThreadInput))
    (st : WriterState) (hall : allInsertsOk msgs = true)
    (hc : contiguousFromB 0 (fileEntries st.index) = true)
    (ho : st.offset = sizeSum (fileEntries st.index)) :
    contiguousFromB 0 (fileEntries (writer_loop_go st msgs).index) = true ∧
    (writer_loop_go st msgs).offset =
      sizeSum (fileEntries (writer_loop_go st msgs).index) := by
  induction msgs generalizing st with
  | nil => exact ⟨hc, ho⟩
  | cons m rest ih =>
    cases m with
    | none => exact ⟨hc, ho⟩
    | some msg =>
      simp only [allInsertsOk, List.all_cons, Bool.and_eq_true] at hall
      have hstep := writerStep_inv st msg hall.1 hc ho
      exact ih (writerStep st msg) hall.2 hstep.1 hstep.2

/-- Claim C1, counterexample: a first message whose index insert fails (the
source logs and discards that error but still advances the offset by the
bytes written, lib.rs lines 55-63) is followed by a successfully indexed
one; the produced index's single FILE entry has `offset = 1 ≠ 0`, so the
sequence of FILE entries is not gap-free from 0. -/
theorem writer_index_gap_on_insert_failure :
    (writer_loop
        [some ⟨WriteThreadData.RawBytes [0] true, CompressionType.LZ4, "a", false⟩,
         some ⟨WriteThreadData.RawBytes [0] true, CompressionType.LZ4, "b", true⟩]).index =
      [⟨"b", "FILE", 1, 1, CompressionType.LZ4⟩] ∧
    contiguousFromB 0 (fileEntries (writer_loop
        [some ⟨WriteThreadData.RawBytes [0] true, CompressionType.LZ4, "a", false⟩,
         some ⟨WriteThreadData.RawBytes [0] true, CompressionType.LZ4, "b", true⟩]).index) =
      false := by
  decide

/-- Claim C1 (amended): provided every index insert succeeds (a failed
insert skips the row but still advances the offset, leaving a gap), the
FILE entries of the produced index, in insertion order, satisfy
`e₁.offset = 0` and `eᵢ.offset = eᵢ₋₁.offset + eᵢ₋₁.size`; in particular
adjacent FILE entries satisfy `a.offset + a.size = b.offset`. -/
theorem writer_index_gap_free (msgs : List (Option WriteThreadInput))
    (hall : allInsertsOk msgs = true) :
    contiguousFromB 0 (fileEntries (writer_loop msgs).index) = true :=
  (writer_loop_go_inv msgs ⟨0, 0, []⟩ hall rfl rfl).1

/-- Claim C1 (amended), witness: a run with two files and a folder, every
insert succeeding, yields a gap-free index. -/
theorem writer_index_gap_free_witness :
    allInsertsOk
      [some ⟨WriteThreadData.RawBytes [5, 6] true, CompressionType.LZ4, "a", true⟩,
       some ⟨WriteThreadData.Folder, CompressionType.LZ4, "d", true⟩,
       some ⟨WriteThreadData.TempFile true true 3 0, CompressionType.LZ4, "b", true⟩] = true ∧
    contiguousFromB 0 (fileEntries (writer_loop
      [some ⟨WriteThreadData.RawBytes [5, 6] true, CompressionType.LZ4, "a", true⟩,
       some ⟨WriteThreadData.Folder, CompressionType.LZ4, "d", true⟩,
       some ⟨WriteThreadData.TempFile true true 3 0, CompressionType.LZ4, "b", true⟩]).index) =
      true :=
  ⟨by decide, writer_index_gap_free
    [some ⟨WriteThreadData.RawBytes [5, 6] true, CompressionType.LZ4, "a", true⟩,
     some ⟨WriteThreadData.Folder, CompressionType.LZ4, "d", true⟩,
     some ⟨WriteThreadData.TempFile true true 3 0, CompressionType.LZ4, "b", true⟩]
    (by decide)⟩

end S4
